import Mathlib

/-!
Verification development for the `randd-goals` repository: a shallow
embedding of the daily task-selection engine (task configuration, per-task
state, eligibility predicates, and the weighted picker) together with
theorems checking the natural-language specification against the code.

Dates are modelled as integer day numbers, so that day differences are
plain integer subtraction.  Machine integers (`u16`, `u32`, `usize`,
`i64`) are modelled as `Nat`/`Int`; the one place where unsigned
wrap-around matters (the `usize` subtraction in the picker) is modelled
explicitly with a checked subtraction returning `Option`.  A Rust panic
(`unwrap` on `None`, `todo!()`, debug-mode underflow) is modelled as
`none`.
-/

/-- `DisabledOptions` (src/config.rs:118-126) in the shape consumed by the
newest revision of `Task::disabled` (src/task/mod.rs:163-174), where the
`For` payload is cast to an integer day count (`for_ as i64`) and the
`Until` payload is compared against a `Date`. -/
inductive DisabledOptions where
  | For (days : Nat)
  | Until (date : Int)
  | Disabled
  | Enabled
deriving DecidableEq

/-- `TaskConfig` (src/task/config.rs:17-39).  `weight : f64` is modelled
as `ℚ` (the merge logic only ever compares it for equality with the
default `1.0`).  The `spoons` field is witnessed by the `Task::spoons`
getter and `TaskInfo` in src/task/mod.rs (it is absent from the
src/task/config.rs revision, whose `merge` therefore never touches it). -/
structure TaskConfig where
  slug : String
  task : String
  description : Option String := none
  max_occurrences : Option Nat := none
  min_frequency : Option Nat := none
  weight : ℚ := 1
  spoons : Nat := 3
  disabled : DisabledOptions := .Enabled
  tags : List String := []
deriving DecidableEq

/-- `TaskState` (src/task/state.rs:7-15), with dates as day numbers. -/
structure TaskState where
  disabled_on : Option Int := none
  last_chosen : Option Int := none
  times_completed : Nat := 0
  completed : Bool := false
deriving DecidableEq

/-- `TaskState::reset` (src/task/state.rs:18-20). -/
def TaskState.reset (s : TaskState) : TaskState :=
  { s with completed := false }

/-- `TaskState::complete` (src/task/state.rs:22-25). -/
def TaskState.complete (s : TaskState) : TaskState :=
  { s with completed := true, times_completed := s.times_completed + 1 }

/-- `TaskState::enable` (src/task/state.rs:27-29). -/
def TaskState.enable (s : TaskState) : TaskState :=
  { s with disabled_on := none }

/-- `TaskState::disable` (src/task/state.rs:31-34); `today()` is passed in
as the current date. -/
def TaskState.disable (today : Int) (s : TaskState) : TaskState :=
  { s with disabled_on := some today }

/-- `TaskState::choose` (src/task/state.rs:36-39): `reset()` followed by
stamping `last_chosen` with the runtime state's effective date. -/
def TaskState.choose (todaysDate : Int) (s : TaskState) : TaskState :=
  { s.reset with last_chosen := some todaysDate }

/-- Modelled from the spec: `State::days_since_today` is declared in
spec §4.3 ("integer day difference between `todays_date()` and a past
date") but the newest `State` implementation is missing from src/ (only
its callers in src/task/mod.rs and src/picker.rs are present). -/
def days_since_today (todaysDate date : Int) : Int :=
  todaysDate - date

/-- `Task::disabled` (src/task/mod.rs:163-174).  `none` models the
`Option::unwrap` panic on line 171 when the `For` variant is set but the
task state has no recorded `disabled_on` date. -/
def Task.disabledP (todaysDate : Int) (cfg : TaskConfig) (st : TaskState) :
    Option Bool :=
  match cfg.disabled with
  | .Enabled => some false
  | .Disabled => some true
  | .Until u => some (decide (u ≥ todaysDate))
  | .For n =>
    match st.disabled_on with
    | none => none
    | some d => some (decide (days_since_today todaysDate d ≥ (n : Int)))

/-- `Task::choosable` (src/task/mod.rs:176-195), faithful to the source,
including the negated guard on line 180
(`if !(self.disabled(the_state) || the_state.todays_tasks().contains(&self.slug))`).
`none` propagates a panic from `Task::disabled`. -/
def Task.choosableP (todaysDate : Int) (todaysTasks : List String)
    (cfg : TaskConfig) (st : TaskState) : Option Bool :=
  (Task.disabledP todaysDate cfg st).map fun d =>
    if !(d || todaysTasks.contains cfg.slug) then
      false
    else if (match cfg.max_occurrences with
             | some m => decide (st.times_completed ≥ m)
             | none => false) then
      false
    else
      match cfg.min_frequency with
      | some f =>
        match st.last_chosen with
        | some lc => decide (days_since_today todaysDate lc ≥ (f : Int))
        | none => true
      | none => true

/-- Task "A" of the spec scenario: weight 1, disabled, no limits. -/
def taskA : TaskConfig :=
  { slug := "a", task := "A", disabled := .Disabled }

/-- Task "B" of the spec scenario: weight 1, enabled, no limits. -/
def taskB : TaskConfig :=
  { slug := "b", task := "B" }

/-- A config that is disabled `For(3)` days. -/
def taskFor3 : TaskConfig :=
  { slug := "f", task := "F", disabled := .For 3 }

/-- C6: `TaskState::complete` sets `completed = true` and increments
`times_completed` by exactly 1; completing twice adds 2 and leaves
`completed = true`; no `TaskState` operation ever decreases
`times_completed`. -/
theorem task_state_complete_spec (s : TaskState) (d td : Int) :
    s.complete = { s with completed := true,
                          times_completed := s.times_completed + 1 } ∧
    s.complete.complete.times_completed = s.times_completed + 2 ∧
    s.complete.complete.completed = true ∧
    s.times_completed ≤ s.complete.times_completed ∧
    s.reset.times_completed = s.times_completed ∧
    s.enable.times_completed = s.times_completed ∧
    (TaskState.disable d s).times_completed = s.times_completed ∧
    (TaskState.choose td s).times_completed = s.times_completed := by
  refine ⟨rfl, rfl, rfl, ?_, rfl, rfl, rfl, rfl⟩
  exact Nat.le_succ _

/-- C9: `Task::disabled` panics (returns `none` in this embedding) exactly
when the config's `disabled` field is the `For` variant while the state's
`disabled_on` is unset; in every other situation — in particular whenever
`disabled_on` is `Some` when `For` is set — it is total. -/
theorem task_disabled_panic_characterization (todaysDate : Int)
    (cfg : TaskConfig) (st : TaskState) :
    Task.disabledP todaysDate cfg st = none ↔
      (∃ n, cfg.disabled = .For n) ∧ st.disabled_on = none := by
  unfold Task.disabledP
  cases h : cfg.disabled <;> simp
  cases st.disabled_on <;> simp

/-- Witness for C9: with `For(3)` set and no `disabled_on`, evaluating
`Task::disabled` hits the panic branch. -/
theorem task_disabled_panic_characterization_w :
    Task.disabledP 0 taskFor3 { } = none :=
  (task_disabled_panic_characterization 0 taskFor3 { }).mpr
    ⟨⟨3, rfl⟩, rfl⟩

/-- C2 (code bug): the spec says `For(n_days)` keeps the task disabled
while `days_since_today(disabled_on) < n_days`.  The code
(src/task/mod.rs:170-172) uses the inverted comparison
`days_since_today(disabled_on) >= n_days`: with `For(3)` and
`disabled_on = today - 2` (today = 10, disabled_on = 8) it reports the
task as NOT disabled, and with `disabled_on = today - 3` as disabled —
the exact opposite of the spec's scenario. -/
theorem disabled_for_comparison_inverted_cex :
    Task.disabledP 10 taskFor3 { disabled_on := some 8 } = some false ∧
    Task.disabledP 10 taskFor3 { disabled_on := some 7 } = some true := by
  constructor <;> rfl

/-- C1 (code bug): the spec requires a task to be choosable only if it is
not disabled and not already in `todays_tasks`; the code
(src/task/mod.rs:180) negates that guard, so with an empty
`todays_tasks` the enabled task B is reported NOT choosable while the
disabled task A is reported choosable. -/
theorem choosable_guard_inverted_cex :
    Task.choosableP 0 [] taskB { } = some false ∧
    Task.choosableP 0 [] taskA { } = some true := by
  constructor <;> rfl

/-- `TaskSet` (src/task/set.rs:14-17) wraps `BTreeSet<String>`; it is
modelled by its iteration sequence, a strictly-ascending list of slugs
(`String`'s order is lexicographic).  `tsInsert` is `BTreeSet::insert`:
it places the new slug at its ordered position and is a no-op when the
slug is already present. -/
def tsInsert (x : String) : List String → List String
  | [] => [x]
  | y :: ys =>
    if x < y then x :: y :: ys
    else if x = y then y :: ys
    else y :: tsInsert x ys

/-- `impl Extend for TaskSet` (src/task/set.rs:98-106): extending inserts
each incoming slug in turn. -/
def tsExtend (s : List String) (l : List String) : List String :=
  l.foldl (fun acc x => tsInsert x acc) s

/-- One mutating operation on a `TaskSet`: `insert`, `extend`, or
`remove` (`BTreeSet::remove` drops the slug if present). -/
inductive SetOp where
  | ins (slug : String)
  | ext (slugs : List String)
  | rem (slug : String)

/-- Apply one `SetOp` to a `TaskSet`. -/
def applySetOp (s : List String) : SetOp → List String
  | .ins x => tsInsert x s
  | .ext l => tsExtend s l
  | .rem x => s.erase x

theorem mem_tsInsert {x z : String} {l : List String}
    (h : z ∈ tsInsert x l) : z = x ∨ z ∈ l := by
  induction l with
  | nil => simpa [tsInsert] using h
  | cons y ys ih =>
    unfold tsInsert at h
    split at h
    · simpa using h
    · split at h
      · exact Or.inr h
      · rcases List.mem_cons.mp h with h | h
        · exact Or.inr (by simp [h])
        · rcases ih h with h | h
          · exact Or.inl h
          · exact Or.inr (List.mem_cons_of_mem _ h)

theorem tsInsert_pairwise {x : String} {l : List String}
    (h : l.Pairwise (· < ·)) : (tsInsert x l).Pairwise (· < ·) := by
  induction l with
  | nil => simp [tsInsert]
  | cons y ys ih =>
    rcases List.pairwise_cons.mp h with ⟨hy, hys⟩
    unfold tsInsert
    split
    · rename_i hxy
      refine List.pairwise_cons.mpr ⟨?_, h⟩
      intro z hz
      rcases List.mem_cons.mp hz with rfl | hz
      · exact hxy
      · exact lt_trans hxy (hy z hz)
    · split
      · exact h
      · rename_i hxy hne
        have hyx : y < x := by
          rcases lt_trichotomy x y with h1 | h1 | h1
          · exact absurd h1 hxy
          · exact absurd h1 hne
          · exact h1
        refine List.pairwise_cons.mpr ⟨?_, ih hys⟩
        intro z hz
        rcases mem_tsInsert hz with rfl | hz
        · exact hyx
        · exact hy z hz

theorem tsExtend_pairwise {s : List String} {l : List String}
    (h : s.Pairwise (· < ·)) : (tsExtend s l).Pairwise (· < ·) := by
  induction l generalizing s with
  | nil => simpa [tsExtend] using h
  | cons x xs ih =>
    simpa [tsExtend, List.foldl_cons] using ih (tsInsert_pairwise h)

theorem applySetOp_pairwise {s : List String} (op : SetOp)
    (h : s.Pairwise (· < ·)) : (applySetOp s op).Pairwise (· < ·) := by
  cases op with
  | ins x => exact tsInsert_pairwise h
  | ext l => exact tsExtend_pairwise h
  | rem x => exact List.Pairwise.sublist (List.erase_sublist x s) h

/-- C10: starting from any strictly-sorted `TaskSet` (in particular the
empty one produced by `TaskSet::new`), any sequence of inserts, extends
and removes yields a set whose iteration order is strictly ascending in
the lexicographic order on slugs — hence each slug appears at most
once. -/
theorem task_set_sorted_nodup (init : List String) (ops : List SetOp)
    (h : init.Pairwise (· < ·)) :
    (ops.foldl applySetOp init).Pairwise (· < ·) ∧
    (ops.foldl applySetOp init).Nodup := by
  have hp : (ops.foldl applySetOp init).Pairwise (· < ·) := by
    induction ops generalizing init with
    | nil => simpa using h
    | cons op ops ih =>
      simpa [List.foldl_cons] using ih _ (applySetOp_pairwise op h)

  exact ⟨hp, hp.imp ne_of_lt⟩

/-- Witness for C10: a concrete run — insert "b", extend with
["a", "c", "a"], remove "c", insert "b" again — stays sorted and
duplicate-free. -/
theorem task_set_sorted_nodup_w :
    (([SetOp.ins "b", SetOp.ext ["a", "c", "a"], SetOp.rem "c",
       SetOp.ins "b"] : List SetOp).foldl applySetOp []).Pairwise
      (· < ·) ∧
    (([SetOp.ins "b", SetOp.ext ["a", "c", "a"], SetOp.rem "c",
       SetOp.ins "b"] : List SetOp).foldl applySetOp []).Nodup :=
  task_set_sorted_nodup [] _ (by simp)

/-- The joined, live view of one task: its `TaskConfig` and its
`TaskState` (shared via `RcCell` in the source), as held by the runtime
`State`'s slug-keyed task map. -/
structure TaskJ where
  config : TaskConfig
  state : TaskState
deriving DecidableEq

/-- Modelled from the spec: the picker-facing runtime `State` (spec §3,
§4.3).  The newest `State` implementation (with `todays_date`,
`last_generated_date`, `todays_tasks`, `mark_generated`) is missing from
src/; only its callers in src/picker.rs and src/task/mod.rs are present.
`todays_date` is the memoized effective day; `last_generated_date` is the
effective date of the `last_generated` timestamp; `todays_tasks` is the
`TaskSet` iteration sequence. -/
structure PState where
  tasks : List TaskJ
  todays_tasks : List String
  todays_date : Int
  last_generated_date : Int
deriving DecidableEq

/-- The `filter(|t| t.choosable(state))` step of `pick_tasks`
(src/picker.rs:6-10); a panic inside `choosable` propagates as `none`. -/
def filter_choosable (td : Int) (tt : List String) :
    List TaskJ → Option (List TaskJ)
  | [] => some []
  | t :: ts => do
    let b ← Task.choosableP td tt t.config t.state
    let rest ← filter_choosable td tt ts
    pure (if b then t :: rest else rest)

/-- `pick_tasks` (src/picker.rs:5-17): filter to choosable tasks, draw up
to `num` of them, run `choose` on each drawn task's state, and return the
drawn slugs.  The weighted random draw is abstracted as the `draw`
parameter (choose_multiple_weighted over an OS-seeded rng). -/
def pick_tasks (draw : List TaskJ → Nat → List TaskJ) (num : Nat)
    (s : PState) : Option (List String × PState) := do
  let choosables ← filter_choosable s.todays_date s.todays_tasks s.tasks
  let chosen := draw choosables num
  let slugs := chosen.map fun t => t.config.slug
  let tasks1 := s.tasks.map fun t =>
    if slugs.contains t.config.slug then
      { t with state := TaskState.choose s.todays_date t.state }
    else t
  pure (slugs, { s with tasks := tasks1 })

/-- The day-rollover step shared by both picker modes
(src/picker.rs:20-21 and 39-41): when the effective day has advanced past
`last_generated`'s effective date, `todays_tasks` is cleared before
anything is counted. -/
def preCountState (s : PState) : PState :=
  if s.todays_date > s.last_generated_date then
    { s with todays_tasks := [] }
  else s

/-- The `num_tasks_to_generate` computation of
`pick_todays_tasks_by_num_tasks` (src/picker.rs:20-25).  The `else`
branch is the `usize` subtraction `num_tasks - state.todays_tasks().len()`;
`none` models its underflow panic when `todays_tasks` holds more slugs
than `num_tasks`. -/
def num_tasks_to_generate (num_tasks : Nat) (s : PState) : Option Nat :=
  if s.todays_date > s.last_generated_date then some num_tasks
  else if s.todays_tasks.length ≤ num_tasks then
    some (num_tasks - s.todays_tasks.length)
  else none

/-- Modelled from the spec: `State::mark_generated` (spec §4.5 step 7,
"Stamp `last_generated = now()`") — within one process run `now()`'s
effective date is the memoized `todays_date`. -/
def mark_generated (s : PState) : PState :=
  { s with last_generated_date := s.todays_date }

/-- `pick_todays_tasks_by_num_tasks` (src/picker.rs:19-36): conditional
rollover clear, needed-count computation, and — when the count is
positive — a draw committed into `todays_tasks` followed by
`mark_generated`; otherwise "nothing changed" (`false`). -/
def pick_todays_tasks_by_num_tasks (draw : List TaskJ → Nat → List TaskJ)
    (num_tasks : Nat) (s : PState) : Option (Bool × PState) := do
  let s1 := preCountState s
  let n ← num_tasks_to_generate num_tasks s
  if n > 0 then
    let r ← pick_tasks draw n s1
    let s3 := { r.2 with todays_tasks := tsExtend r.2.todays_tasks r.1 }
    pure (true, mark_generated s3)
  else
    pure (false, s1)

/-- Modelled from the spec: `State::current_spoons` (spec §4.5 step 2,
the "spoon budget" accumulates a per-task cost metric over the tasks
currently in `todays_tasks`); missing from src/. -/
def current_spoons (s : PState) : Nat :=
  (s.tasks.filter fun t => s.todays_tasks.contains t.config.slug).foldl
    (fun acc t => acc + t.config.spoons) 0

/-- `pick_todays_tasks_by_max_spoons` (src/picker.rs:38-47): the same
rollover clear, then an early "nothing changed" return when the budget is
already exhausted; the rest of the function is `todo!()`, modelled as
`none`. -/
def pick_todays_tasks_by_max_spoons (max_spoons : Nat) (s : PState) :
    Option (Bool × PState) :=
  let s1 := preCountState s
  if current_spoons s1 ≥ max_spoons then some (false, s1) else none

/-- A concrete draw function used only by the closed witness statements:
take the first `n` eligible tasks. -/
def takeDraw (l : List TaskJ) (n : Nat) : List TaskJ :=
  l.take n

/-- C4: on day rollover (`todays_date() > last_generated_date()`) both
picker modes clear `todays_tasks` before counting: the pre-count state is
empty, and each picker behaves exactly as it does on the state whose
`todays_tasks` was already empty — regardless of the completion status of
the previously chosen tasks. -/
theorem picker_rollover_clears (draw : List TaskJ → Nat → List TaskJ)
    (n m : Nat) (s : PState)
    (h : s.todays_date > s.last_generated_date) :
    (preCountState s).todays_tasks = [] ∧
    pick_todays_tasks_by_num_tasks draw n s =
      pick_todays_tasks_by_num_tasks draw n { s with todays_tasks := [] } ∧
    pick_todays_tasks_by_max_spoons m s =
      pick_todays_tasks_by_max_spoons m { s with todays_tasks := [] } := by
  refine ⟨by simp [preCountState, h], ?_, ?_⟩
  · simp [pick_todays_tasks_by_num_tasks, preCountState,
      num_tasks_to_generate, h]
  · simp [pick_todays_tasks_by_max_spoons, preCountState, h]

/-- A rolled-over state for the C4 witness. -/
def sRoll : PState :=
  { tasks := [], todays_tasks := ["x"], todays_date := 1,
    last_generated_date := 0 }

/-- Witness for C4 at a concrete rolled-over state. -/
theorem picker_rollover_clears_w :
    (preCountState sRoll).todays_tasks = [] ∧
    pick_todays_tasks_by_num_tasks takeDraw 1 sRoll =
      pick_todays_tasks_by_num_tasks takeDraw 1
        { sRoll with todays_tasks := [] } ∧
    pick_todays_tasks_by_max_spoons 1 sRoll =
      pick_todays_tasks_by_max_spoons 1
        { sRoll with todays_tasks := [] } :=
  picker_rollover_clears takeDraw 1 1 sRoll (by decide)

/-- A state with an empty catalog on the same effective day as
`last_generated`: the C3 counterexample. -/
def sEmpty : PState :=
  { tasks := [], todays_tasks := [], todays_date := 0,
    last_generated_date := 0 }

/-- C3 counterexample: with `daily_tasks = 1` and an empty catalog, a
picker call within the same effective day leaves the state completely
unchanged yet computes `needed = 1 > 0` and returns `true`; hence the
second of two same-day invocations (its input state is the same
`sEmpty`) again has `needed = 1`, not `needed <= 0`, and returns `true`,
not "nothing changed". -/
theorem picker_second_call_not_noop_cex :
    pick_todays_tasks_by_num_tasks takeDraw 1 sEmpty =
      some (true, sEmpty) ∧
    num_tasks_to_generate 1 sEmpty = some 1 := by
  constructor <;> rfl

/-- C3 (amended): a picker invocation in fixed-task-count mode within the
same effective day as `last_generated`, on a state whose `todays_tasks`
already holds exactly the configured number of slugs (as after a fully
filled first call), computes `needed = 0`, draws nothing, leaves
`todays_tasks` and every task state unchanged, and returns `false`. -/
theorem picker_idempotent_when_filled
    (draw : List TaskJ → Nat → List TaskJ) (n : Nat) (s : PState)
    (h1 : s.last_generated_date = s.todays_date)
    (h2 : s.todays_tasks.length = n) :
    pick_todays_tasks_by_num_tasks draw n s = some (false, s) := by
  have hroll : ¬ s.todays_date > s.last_generated_date := by
    rw [h1]; exact lt_irrefl _
  simp [pick_todays_tasks_by_num_tasks, preCountState,
    num_tasks_to_generate, hroll, h2]

/-- A same-day, fully-filled state for the C3 witness. -/
def sFull : PState :=
  { tasks := [], todays_tasks := ["a"], todays_date := 5,
    last_generated_date := 5 }

/-- Witness for C3 (amended) at a concrete fully-filled state. -/
theorem picker_idempotent_when_filled_w :
    pick_todays_tasks_by_num_tasks takeDraw 1 sFull = some (false, sFull) :=
  picker_idempotent_when_filled takeDraw 1 sFull (by decide) (by decide)

/-- C5: with no day rollover, the needed count is the unsigned
subtraction `num_tasks - |todays_tasks|`: it is defined (no
underflow/panic) exactly when `|todays_tasks| <= num_tasks`, in which
case it equals the difference; when `todays_tasks` holds more slugs than
the daily count the subtraction underflows (`none`) and the whole picker
call panics instead of reporting "nothing changed". -/
theorem needed_subtraction_partiality
    (draw : List TaskJ → Nat → List TaskJ) (n : Nat) (s : PState)
    (h : ¬ s.todays_date > s.last_generated_date) :
    ((num_tasks_to_generate n s).isSome ↔ s.todays_tasks.length ≤ n) ∧
    (s.todays_tasks.length ≤ n →
      num_tasks_to_generate n s = some (n - s.todays_tasks.length)) ∧
    (n < s.todays_tasks.length →
      pick_todays_tasks_by_num_tasks draw n s = none) := by
  refine ⟨?_, ?_, ?_⟩
  · unfold num_tasks_to_generate
    simp only [if_neg h]
    split <;> simp_all
  · intro hle
    simp [num_tasks_to_generate, h, hle]
  · intro hlt
    have hnle : ¬ s.todays_tasks.length ≤ n := by omega
    simp [pick_todays_tasks_by_num_tasks, num_tasks_to_generate, h, hnle]

/-- A same-day state whose `todays_tasks` exceeds the daily count, for
the C5 witness. -/
def sOver : PState :=
  { tasks := [], todays_tasks := ["a", "b"], todays_date := 0,
    last_generated_date := 0 }

/-- Witness for C5: with two slugs in `todays_tasks` and a daily count of
one, the subtraction is undefined and the picker call panics. -/
theorem needed_subtraction_partiality_w :
    ((num_tasks_to_generate 1 sOver).isSome ↔
      sOver.todays_tasks.length ≤ 1) ∧
    (sOver.todays_tasks.length ≤ 1 →
      num_tasks_to_generate 1 sOver =
        some (1 - sOver.todays_tasks.length)) ∧
    (1 < sOver.todays_tasks.length →
      pick_todays_tasks_by_num_tasks takeDraw 1 sOver = none) :=
  needed_subtraction_partiality takeDraw 1 sOver (by decide)

/-- The tag-union loop of `TaskConfig::merge` (src/task/config.rs:107-111):
each incoming tag is appended only if not already present. -/
def tagUnion (base : List String) (incoming : List String) : List String :=
  incoming.foldl (fun acc tag => if tag ∈ acc then acc else acc ++ [tag])
    base

/-- `TaskConfig::merge` (src/task/config.rs:86-112): field-wise override
of the base config by the non-default fields of `other`; the slug cell is
never touched. -/
def TaskConfig.merge (self other : TaskConfig) : TaskConfig :=
  { slug := self.slug
    task := if other.task = "" then self.task else other.task
    description :=
      match other.description with
      | some d => if d = "" then self.description else some d
      | none => self.description
    max_occurrences :=
      if other.max_occurrences.getD 0 = 0 then self.max_occurrences
      else other.max_occurrences
    min_frequency :=
      if other.min_frequency.getD 0 = 0 then self.min_frequency
      else other.min_frequency
    weight := if other.weight = 1 then self.weight else other.weight
    spoons := self.spoons
    disabled :=
      if other.disabled = .Enabled then self.disabled else other.disabled
    tags := tagUnion self.tags other.tags }

theorem mem_tagUnion {x : String} {l : List String} :
    ∀ {base : List String}, x ∈ tagUnion base l ↔ x ∈ base ∨ x ∈ l := by
  induction l with
  | nil =>
    intro base
    simp [tagUnion]
  | cons t ts ih =>
    intro base
    show x ∈ tagUnion (if t ∈ base then base else base ++ [t]) ts ↔ _
    rw [ih]
    split
    · rename_i ht
      constructor
      · rintro (h | h)
        · exact Or.inl h
        · exact Or.inr (List.mem_cons_of_mem _ h)
      · rintro (h | h)
        · exact Or.inl h
        · rcases List.mem_cons.mp h with rfl | h
          · exact Or.inl ht
          · exact Or.inr h
    · constructor
      · rintro (h | h)
        · rcases List.mem_append.mp h with h | h
          · exact Or.inl h
          · rcases List.mem_singleton.mp h with rfl
            exact Or.inr (List.mem_cons_self _ _)
        · exact Or.inr (List.mem_cons_of_mem _ h)
      · rintro (h | h)
        · exact Or.inl (List.mem_append.mpr (Or.inl h))
        · rcases List.mem_cons.mp h with rfl | h
          · exact Or.inl (List.mem_append.mpr (Or.inr (by simp)))
          · exact Or.inr h

theorem nodup_tagUnion {l : List String} :
    ∀ {base : List String}, base.Nodup → (tagUnion base l).Nodup := by
  induction l with
  | nil =>
    intro base h
    simpa [tagUnion] using h
  | cons t ts ih =>
    intro base h
    show (tagUnion (if t ∈ base then base else base ++ [t]) ts).Nodup
    split
    · exact ih h
    · rename_i ht
      refine ih ?_
      simp [List.nodup_append, h, ht]

/-- C8: `merge(base, incoming)` never alters the base slug; tags are
unioned (incoming tags not already present are appended, duplicates
dropped, so a duplicate-free base stays duplicate-free); and each scalar
field takes the incoming value exactly when that value is non-default
(non-empty title/description, weight ≠ 1, non-zero
min_frequency/max_occurrences, disabled ≠ Enabled), keeping the base
value otherwise. -/
theorem task_config_merge_spec (b o : TaskConfig) (hb : b.tags.Nodup) :
    (b.merge o).slug = b.slug ∧
    (∀ t, t ∈ (b.merge o).tags ↔ t ∈ b.tags ∨ t ∈ o.tags) ∧
    (b.merge o).tags.Nodup ∧
    (b.merge o).task = (if o.task = "" then b.task else o.task) ∧
    (b.merge o).description =
      (match o.description with
       | some d => if d = "" then b.description else some d
       | none => b.description) ∧
    (b.merge o).weight = (if o.weight = 1 then b.weight else o.weight) ∧
    (b.merge o).min_frequency =
      (if o.min_frequency.getD 0 = 0 then b.min_frequency
       else o.min_frequency) ∧
    (b.merge o).max_occurrences =
      (if o.max_occurrences.getD 0 = 0 then b.max_occurrences
       else o.max_occurrences) ∧
    (b.merge o).disabled =
      (if o.disabled = .Enabled then b.disabled else o.disabled) :=
  ⟨rfl, fun _ => mem_tagUnion, nodup_tagUnion hb, rfl, rfl, rfl, rfl, rfl,
    rfl⟩

/-- A base config with duplicate-free tags, for the C8 witness. -/
def cfgBase : TaskConfig :=
  { slug := "base", task := "Base", tags := ["x", "y"] }

/-- An incoming config with an empty title, a non-default weight, and
overlapping/duplicated tags, for the C8 witness. -/
def cfgInc : TaskConfig :=
  { slug := "inc", task := "", weight := 2, tags := ["y", "z", "z"] }

/-- Witness for C8 at concrete configs. -/
theorem task_config_merge_spec_w :
    (cfgBase.merge cfgInc).slug = cfgBase.slug ∧
    (∀ t, t ∈ (cfgBase.merge cfgInc).tags ↔
      t ∈ cfgBase.tags ∨ t ∈ cfgInc.tags) ∧
    (cfgBase.merge cfgInc).tags.Nodup ∧
    (cfgBase.merge cfgInc).task =
      (if cfgInc.task = "" then cfgBase.task else cfgInc.task) ∧
    (cfgBase.merge cfgInc).description =
      (match cfgInc.description with
       | some d => if d = "" then cfgBase.description else some d
       | none => cfgBase.description) ∧
    (cfgBase.merge cfgInc).weight =
      (if cfgInc.weight = 1 then cfgBase.weight else cfgInc.weight) ∧
    (cfgBase.merge cfgInc).min_frequency =
      (if cfgInc.min_frequency.getD 0 = 0 then cfgBase.min_frequency
       else cfgInc.min_frequency) ∧
    (cfgBase.merge cfgInc).max_occurrences =
      (if cfgInc.max_occurrences.getD 0 = 0 then cfgBase.max_occurrences
       else cfgInc.max_occurrences) ∧
    (cfgBase.merge cfgInc).disabled =
      (if cfgInc.disabled = .Enabled then cfgBase.disabled
       else cfgInc.disabled) :=
  task_config_merge_spec cfgBase cfgInc (by decide)

/-- `TaskConfig` of the src/config.rs revision (lines 138-151), the type
consumed by `State::add_task` in src/state.rs: a plain `slug` field
plus title, details, weight, disabled flag and tags. -/
structure CTaskConfig where
  slug : String
  task : String
  details : Option String := none
  weight : ℚ := 1
  disabled : DisabledOptions := .Enabled
  tags : List String := []
deriving DecidableEq

/-- `TaskState` of the src/state.rs revision (lines 58-64):
`disabled_at` timestamp, `last_chosen` date, completion flag.
`TaskState::default()` is all fields defaulted. -/
structure STaskState where
  disabled_at : Option Int := none
  last_chosen : Option Int := none
  completed : Bool := false
deriving DecidableEq

/-- The error values relevant to catalog mutation (src/error.rs,
`RanddGoalsError::TaskAlreadyExists` / `TaskNotFound`). -/
inductive CatalogError where
  | TaskAlreadyExists (slug : String)
  | TaskNotFound (slug : String)
deriving DecidableEq

/-- `Config` (src/config.rs:26-38): the task catalog vector together with
its slug-keyed `tasks_map`; the map is modelled as an association list
whose most recent insertion shadows older entries, like
`HashMap::insert`. -/
structure ConfigDoc where
  tasks : List CTaskConfig := []
  tasks_map : List (String × CTaskConfig) := []
deriving DecidableEq

/-- `Config::contains_task` (src/config.rs:79-82). -/
def ConfigDoc.contains_task (c : ConfigDoc) (slug : String) : Bool :=
  (c.tasks_map.lookup slug).isSome

/-- `Config::add_task` (src/config.rs:68-77): duplicate slugs are
rejected with `TaskAlreadyExists` before any mutation; otherwise the
config is pushed onto the catalog vector and inserted into the map. -/
def ConfigDoc.add_task (c : ConfigDoc) (cfg : CTaskConfig) :
    Except CatalogError ConfigDoc :=
  if c.contains_task cfg.slug then
    .error (.TaskAlreadyExists cfg.slug)
  else
    .ok { tasks := c.tasks ++ [cfg],
          tasks_map := (cfg.slug, cfg) :: c.tasks_map }

/-- `State` (src/state.rs:89-94): the config document, the state
document's slug-keyed `TaskState` map (`model.tasks`), and the live
slug-keyed task map joining config and state. -/
structure StateS where
  config : ConfigDoc := { }
  model_tasks : List (String × STaskState) := []
  tasks : List (String × (CTaskConfig × STaskState)) := []
deriving DecidableEq

/-- `State::add_task` (src/state.rs:190-199): builds a live task with a
freshly defaulted `TaskState`, delegates to `Config::add_task` — whose
error propagates through `?` before `model.tasks` or the live map are
touched — and on success inserts the state and the live task under the
slug.  The returned pair makes the `&mut self` semantics explicit: on
error the returned state is the input unchanged. -/
def StateS.add_task (st : StateS) (cfg : CTaskConfig) :
    Option CatalogError × StateS :=
  match st.config.add_task cfg with
  | .error e => (some e, st)
  | .ok config1 =>
    (none,
     { config := config1,
       model_tasks := (cfg.slug, { }) :: st.model_tasks,
       tasks := (cfg.slug, (cfg, { })) :: st.tasks })

/-- C7: `add_task` with a slug already present in the catalog fails with
`TaskAlreadyExists(slug)` and mutates nothing — the config catalog, the
state map and the live task map are the input's; with a fresh slug it
succeeds and registers the task in the config catalog, in the state map
with a freshly defaulted `TaskState`, and in the live task map. -/
theorem state_add_task_spec (st : StateS) (cfg : CTaskConfig) :
    (st.config.contains_task cfg.slug = true →
      StateS.add_task st cfg =
        (some (.TaskAlreadyExists cfg.slug), st)) ∧
    (st.config.contains_task cfg.slug = false →
      (StateS.add_task st cfg).1 = none ∧
      (StateS.add_task st cfg).2.config.tasks = st.config.tasks ++ [cfg] ∧
      (StateS.add_task st cfg).2.config.tasks_map.lookup cfg.slug =
        some cfg ∧
      (StateS.add_task st cfg).2.model_tasks.lookup cfg.slug =
        some { } ∧
      (StateS.add_task st cfg).2.tasks.lookup cfg.slug =
        some (cfg, { })) := by
  constructor
  · intro h
    simp [StateS.add_task, ConfigDoc.add_task, h]
  · intro h
    simp [StateS.add_task, ConfigDoc.add_task, h]

/-- A one-entry catalog holding slug "foo", for the C7 witness. -/
def stFoo : StateS :=
  { config := { tasks := [{ slug := "foo", task := "Foo" }],
                tasks_map := [("foo", { slug := "foo", task := "Foo" })] },
    model_tasks := [("foo", { })],
    tasks := [("foo", ({ slug := "foo", task := "Foo" }, { }))] }

/-- A duplicate config with slug "foo", for the C7 witness. -/
def cfgFoo : CTaskConfig :=
  { slug := "foo", task := "Foo again" }

/-- A fresh config with slug "bar", for the C7 witness. -/
def cfgBar : CTaskConfig :=
  { slug := "bar", task := "Bar" }

/-- Witness for C7: adding duplicate "foo" fails with `TaskAlreadyExists`
leaving the state unchanged, while adding fresh "bar" registers it in
all three maps. -/
theorem state_add_task_spec_w :
    StateS.add_task stFoo cfgFoo =
      (some (.TaskAlreadyExists "foo"), stFoo) ∧
    ((StateS.add_task stFoo cfgBar).1 = none ∧
      (StateS.add_task stFoo cfgBar).2.config.tasks =
        stFoo.config.tasks ++ [cfgBar] ∧
      (StateS.add_task stFoo cfgBar).2.config.tasks_map.lookup "bar" =
        some cfgBar ∧
      (StateS.add_task stFoo cfgBar).2.model_tasks.lookup "bar" =
        some { } ∧
      (StateS.add_task stFoo cfgBar).2.tasks.lookup "bar" =
        some (cfgBar, { })) :=
  ⟨(state_add_task_spec stFoo cfgFoo).1 (by decide),
   (state_add_task_spec stFoo cfgBar).2 (by decide)⟩
